import Mathlib

/-!
Verification of the order-execution and position-reconciliation core of the
`mlb_kalshi` trading aid, shallowly embedded from `kalshi_client.py` and
`server.py`.

The embedding keeps the source's names where Lean allows it.  Machine
integers are modelled as `Int` (Python integers are unbounded), prices that
flow through Python's true division as `Rat`, HTTP/network effects as
explicit inputs (`Except` for fallible calls), and the mutable module-level
dictionaries of `server.py` as explicit state passed through functions.
-/

/-! ### `kalshi_client.py` — signed transport -/

/-- The fixed API path segment that `_sign_request` prepends to every path
before signing (`full_path = "/trade-api/v2" + path`). -/
def trade_api_v2 : String := "/trade-api/v2"

/-- The string that `_sign_request` actually signs:
`msg_string = timestamp + method + full_path` where
`full_path = "/trade-api/v2" + path`.  The `body` argument is received by
`_sign_request` (as in the source) and never used in the signed string. -/
def msg_string (timestamp method path body : String) : String :=
  timestamp ++ method ++ (trade_api_v2 ++ path)

/-- One query parameter formatted as `f"{k}={v}"`. -/
def param_item (kv : String × String) : String := kv.1 ++ "=" ++ kv.2

/-- `sorted(params.items())`: the parameter list ordered by key (dict keys
are unique, so Python's tuple ordering reduces to key ordering). -/
def sorted_params (params : List (String × String)) : List (String × String) :=
  List.insertionSort (fun a b => a.1 ≤ b.1) params

/-- The query string `'&'.join([f"{k}={v}" for k, v in sorted(params.items())])`. -/
def query_string (params : List (String × String)) : String :=
  String.intercalate "&" ((sorted_params params).map param_item)

/-- `full_path_for_sig` from `_make_signed_request`: the path, with
`?<sorted query>` appended exactly when parameters are present. -/
def full_path_for_sig (path : String) (params : List (String × String)) : String :=
  if params.isEmpty then path else path ++ "?" ++ query_string params

/-- The complete string-to-sign produced by `_make_signed_request` handing
`full_path_for_sig` and the serialized body to `_sign_request`. -/
def signed_message (timestamp method path : String)
    (params : List (String × String)) (body : String) : String :=
  msg_string timestamp method (full_path_for_sig path params) body

/-! ### `kalshi_client.py` — order placement -/

/-- `client_order_id` as generated in `place_order`:
`f'mlb_{int(time.time() * 1000)}'`, a function of the current wall-clock
millisecond reading alone. -/
def client_order_id (time_ms : Nat) : String := "mlb_" ++ Nat.repr time_ms

/-- The `order_data` payload built by `place_order`.  `price_field` records
which of `yes_price`/`no_price` carries the price
(`'yes_price' if side == 'yes' else 'no_price'`). -/
structure OrderData where
  ticker : String
  client_order_id : String
  side : String
  action : String
  count : Int
  order_type : String
  price_field : String
  price : Int
  deriving DecidableEq

/-- `place_order(ticker, side, action, count, price)` with the wall-clock
millisecond reading `time_ms` made an explicit input.  The price is placed
in the payload unchanged. -/
def place_order (ticker side action : String) (count price : Int)
    (time_ms : Nat) : OrderData :=
  { ticker := ticker
    client_order_id := client_order_id time_ms
    side := side
    action := action
    count := count
    order_type := "limit"
    price_field := if side = "yes" then "yes_price" else "no_price"
    price := price }

/-- The default `price_buffer` of `quick_buy_yes` / `quick_buy_no` (2¢). -/
def default_price_buffer : Int := 2

/-- `quick_buy_yes`: buys YES at `min(99, current_price + price_buffer)`. -/
def quick_buy_yes (ticker : String) (count current_price price_buffer : Int)
    (time_ms : Nat) : OrderData :=
  place_order ticker "yes" "buy" count (min 99 (current_price + price_buffer)) time_ms

/-- `quick_buy_no`: buys NO at `min(99, current_price + price_buffer)`. -/
def quick_buy_no (ticker : String) (count current_price price_buffer : Int)
    (time_ms : Nat) : OrderData :=
  place_order ticker "no" "buy" count (min 99 (current_price + price_buffer)) time_ms

/-- The reshaped orderbook returned by `get_orderbook`: per-side lists of
`[price, quantity]` levels, exactly as the exchange sends them (sorted
ascending by price in practice). -/
structure Orderbook where
  yes : List (Int × Int)
  no : List (Int × Int)

/-- `quick_sell_yes`: fails when the YES side of the freshly fetched
orderbook is empty, otherwise sells at `orderbook['yes'][-1][0]`. -/
def quick_sell_yes (orderbook : Orderbook) (ticker : String) (count : Int)
    (time_ms : Nat) : Except String OrderData :=
  match orderbook.yes.getLast? with
  | none => .error "No YES orders available in orderbook"
  | some level => .ok (place_order ticker "yes" "sell" count level.1 time_ms)

/-- `quick_sell_no`: fails when the NO side of the freshly fetched
orderbook is empty, otherwise sells at `orderbook['no'][-1][0]`. -/
def quick_sell_no (orderbook : Orderbook) (ticker : String) (count : Int)
    (time_ms : Nat) : Except String OrderData :=
  match orderbook.no.getLast? with
  | none => .error "No NO orders available in orderbook"
  | some level => .ok (place_order ticker "no" "sell" count level.1 time_ms)

/-! ### `server.py` — local position ledger -/

/-- One side of `local_positions`: `{'count': ..., 'avg_price': ...}`.
Counts are Python integers; `avg_price` passes through true division, so it
is a rational. -/
structure PosState where
  count : Int
  avg_price : Rat
  deriving DecidableEq

/-- The initial ledger entry `{'count': 0, 'avg_price': 0}`. -/
def initial_position : PosState := ⟨0, 0⟩

/-- The BUY branch of the ledger update in `execute_trade`:
`total_cost = count*avg_price + fill_count*executed_price`,
`new_count = count + fill_count`,
`avg_price = total_cost / new_count if new_count > 0 else 0`. -/
def buy_update (s : PosState) (fill_count : Int) (executed_price : Rat) : PosState :=
  let total_cost : Rat := s.count * s.avg_price + fill_count * executed_price
  let new_count : Int := s.count + fill_count
  { count := new_count
    avg_price := if 0 < new_count then total_cost / (new_count : Rat) else 0 }

/-- The SELL branch of the ledger update in `execute_trade`:
`count = max(0, count - fill_count)`, `avg_price` unchanged. -/
def sell_update (s : PosState) (fill_count : Int) : PosState :=
  { count := max 0 (s.count - fill_count), avg_price := s.avg_price }

/-- A BUY fill as applied to the ledger: a contract count and the executed
price. -/
structure Fill where
  count : Int
  price : Rat
  deriving DecidableEq

/-- Folding a sequence of BUY fills over a ledger entry. -/
def apply_buys (s : PosState) (fills : List Fill) : PosState :=
  fills.foldl (fun t f => buy_update t f.count f.price) s

/-- Total contract count of a fill sequence. -/
def fills_count (fills : List Fill) : Int := (fills.map Fill.count).sum

/-- Count-weighted total cost of a fill sequence. -/
def fills_cost (fills : List Fill) : Rat :=
  (fills.map (fun f => (f.count : Rat) * f.price)).sum

/-! ### `server.py` — auto-cancel watchdog -/

/-- Terminal states of one run of the watchdog's `cancel_task`. -/
inductive WatchdogResult where
  /-- The order id had already left `pending_orders`: exit with no network
  call. -/
  | raceLost
  /-- Status was `resting`/`pending`: a cancel was issued. -/
  | canceled
  /-- Any other status: the order no longer needs cancelling. -/
  | alreadyDone (status : String)
  /-- A transport error was swallowed by the `except` block. -/
  | errored
  deriving DecidableEq

/-- The network environment one watchdog run sees: the outcome of
`get_order_status` and of `cancel_order`, each of which may raise. -/
structure WatchdogEnv where
  status_result : Except String String
  cancel_result : Except String Unit

/-- The `try` block of `cancel_task` in `monitor_and_cancel_order`,
returning the updated `pending_orders` set and the terminal state; a raised
transport error escapes as `.error`. -/
def cancel_task_body (env : WatchdogEnv) (order_id : String)
    (pending_orders : Finset String) : Except String (Finset String × WatchdogResult) :=
  if order_id ∉ pending_orders then .ok (pending_orders, .raceLost)
  else
    match env.status_result with
    | .error e => .error e
    | .ok status =>
      if status = "resting" ∨ status = "pending" then
        match env.cancel_result with
        | .error e => .error e
        | .ok _ => .ok (pending_orders.erase order_id, .canceled)
      else .ok (pending_orders.erase order_id, .alreadyDone status)

/-- The whole of `cancel_task`: its `except Exception` handler turns any
raised error into removal of the entry plus a terminal `errored` state, so
the task itself always returns normally. -/
def cancel_task (env : WatchdogEnv) (order_id : String)
    (pending_orders : Finset String) : Except String (Finset String × WatchdogResult) :=
  match cancel_task_body env order_id pending_orders with
  | .ok r => .ok r
  | .error _ => .ok (pending_orders.erase order_id, .errored)

/-! ### `server.py` — the `/api/trade` success path -/

/-- The observable steps of a successful BUY through `execute_trade`, in
program order. -/
inductive TradeEvent where
  | placeOrder
  | armWatchdog
  | updatePositions
  | appendJournal
  | respond
  deriving DecidableEq, BEq

/-- The success path of `execute_trade` for a BUY, as the source orders it:
the order is placed, the id is added to `pending_orders` and
`monitor_and_cancel_order` is started, then `local_positions` is updated,
the trade record is appended, and only then is the response returned. -/
def execute_trade_buy_events : List TradeEvent :=
  [.placeOrder, .armWatchdog, .updatePositions, .appendJournal, .respond]

/-- Both sides of `local_positions`. -/
structure Positions where
  yes : PosState
  no : PosState
  deriving DecidableEq

/-- The `local_positions` update for a BUY on the given side. -/
def update_positions_buy (ps : Positions) (side : String) (count : Int)
    (executed_price : Rat) : Positions :=
  if side = "yes" then ⟨buy_update ps.yes count executed_price, ps.no⟩
  else ⟨ps.yes, buy_update ps.no count executed_price⟩

/-- What a successful BUY through `execute_trade` leaves behind and
returns: the mutated `local_positions` global, and the `positions` field of
the JSON response, which is read from that global after the update. -/
structure TradeOutcome where
  final_positions : Positions
  response_positions : Positions
  deriving DecidableEq

/-- The state/response part of `execute_trade` for a successful BUY: the
ledger is updated in place and the response embeds the updated ledger. -/
def execute_trade_buy (ps : Positions) (side : String) (count : Int)
    (executed_price : Rat) : TradeOutcome :=
  let updated := update_positions_buy ps side count executed_price
  ⟨updated, updated⟩

attribute [ext] PosState

/-! ### Helper development: decimal strings round-trip, so `Nat.repr` is
injective and `client_order_id` collides exactly on equal millisecond
readings. -/

/-- Read a most-significant-digit-first decimal character list back into a
number (each digit character contributes its code point minus 48). -/
def decode_digits (l : List Char) : Nat :=
  l.foldl (fun a c => 10 * a + (c.toNat - 48)) 0

theorem digitChar_toNat_sub (r : Nat) (h : r < 10) :
    (Nat.digitChar r).toNat - 48 = r := by
  interval_cases r <;> rfl

theorem toDigitsCore_shift (b : Nat) :
    ∀ (fuel n : Nat) (ds : List Char),
      Nat.toDigitsCore b fuel n ds = Nat.toDigitsCore b fuel n [] ++ ds := by
  intro fuel
  induction fuel with
  | zero => intro n ds; rfl
  | succ fuel ih =>
    intro n ds
    simp only [Nat.toDigitsCore]
    by_cases h : n / b = 0
    · simp [h]
    · simp only [if_neg h]
      rw [ih (n / b) (Nat.digitChar (n % b) :: ds),
        ih (n / b) [Nat.digitChar (n % b)], List.append_assoc]
      rfl

theorem decode_digits_append (l : List Char) (c : Char) :
    decode_digits (l ++ [c]) = 10 * decode_digits l + (c.toNat - 48) := by
  simp [decode_digits]

theorem decode_toDigitsCore :
    ∀ (fuel n : Nat), n < fuel →
      decode_digits (Nat.toDigitsCore 10 fuel n []) = n := by
  intro fuel
  induction fuel with
  | zero => intro n h; omega
  | succ fuel ih =>
    intro n h
    simp only [Nat.toDigitsCore]
    by_cases h0 : n / 10 = 0
    · simp only [if_pos h0, decode_digits, List.foldl_cons, List.foldl_nil]
      rw [digitChar_toNat_sub (n % 10) (by omega)]
      omega
    · simp only [if_neg h0]
      rw [toDigitsCore_shift, decode_digits_append,
        ih (n / 10) (by omega),
        digitChar_toNat_sub (n % 10) (Nat.mod_lt n (by omega))]
      omega

theorem nat_repr_injective (m n : Nat) (h : Nat.repr m = Nat.repr n) : m = n := by
  have hd : Nat.toDigits 10 m = Nat.toDigits 10 n := by
    have := congrArg String.data h
    simpa [Nat.repr, List.asString] using this
  have hm := decode_toDigitsCore (m + 1) m (Nat.lt_succ_self m)
  have hn := decode_toDigitsCore (n + 1) n (Nat.lt_succ_self n)
  rw [show Nat.toDigitsCore 10 (m + 1) m [] = Nat.toDigits 10 m from rfl, hd] at hm
  rw [show Nat.toDigitsCore 10 (n + 1) n [] = Nat.toDigits 10 n from rfl] at hn
  omega

/-- An element of a list sorted ascending in the first component is bounded
by the last element's first component. -/
theorem fst_le_getLast_of_sorted :
    ∀ (l : List (Int × Int)), List.Pairwise (fun a b => a.1 ≤ b.1) l →
      ∀ x ∈ l, ∀ b, l.getLast? = some b → x.1 ≤ b.1 := by
  intro l
  induction l with
  | nil => intro _ x hx; cases hx
  | cons a t ih =>
    intro hp x hx b hb
    rcases List.pairwise_cons.mp hp with ⟨ha, ht⟩
    cases t with
    | nil =>
      have hba : b = a := by
        simp only [List.getLast?_singleton, Option.some.injEq] at hb
        exact hb.symm
      have hxa : x = a := by simpa using hx
      simp [hba, hxa]
    | cons c t' =>
      rw [List.getLast?_cons_cons] at hb
      have hbmem : b ∈ c :: t' := List.mem_of_getLast?_eq_some hb
      rcases List.mem_cons.mp hx with hxa | hxt
      · rw [hxa]; exact ha b hbmem
      · exact ih ht x hxt b hb

/-! ### Ledger fold characterization -/

theorem count_apply_buys :
    ∀ (fills : List Fill) (s : PosState),
      (apply_buys s fills).count = s.count + fills_count fills := by
  intro fills
  induction fills with
  | nil => intro s; simp [apply_buys, fills_count]
  | cons f t ih =>
    intro s
    have hstep : apply_buys s (f :: t) = apply_buys (buy_update s f.count f.price) t := rfl
    rw [hstep, ih, buy_update]
    simp [fills_count]
    ring

theorem cost_apply_buys :
    ∀ (fills : List Fill) (s : PosState), 0 ≤ s.count →
      (∀ f ∈ fills, 0 < f.count) →
      ((apply_buys s fills).count : Rat) * (apply_buys s fills).avg_price
        = (s.count : Rat) * s.avg_price + fills_cost fills := by
  intro fills
  induction fills with
  | nil => intro s _ _; simp [apply_buys, fills_cost]
  | cons f t ih =>
    intro s hs hpos
    have hf : 0 < f.count := hpos f (List.mem_cons_self f t)
    have hstep : apply_buys s (f :: t) = apply_buys (buy_update s f.count f.price) t := rfl
    have hcount : (buy_update s f.count f.price).count = s.count + f.count := rfl
    have hnc : 0 < s.count + f.count := by omega
    have havg : (buy_update s f.count f.price).avg_price
        = ((s.count : Rat) * s.avg_price + (f.count : Rat) * f.price)
            / ((s.count + f.count : Int) : Rat) := by
      simp [buy_update, if_pos hnc]
    have hcost : ((buy_update s f.count f.price).count : Rat)
        * (buy_update s f.count f.price).avg_price
        = (s.count : Rat) * s.avg_price + (f.count : Rat) * f.price := by
      rw [hcount, havg, mul_div_cancel₀]
      intro hzero
      rw [Int.cast_eq_zero] at hzero
      omega
    rw [hstep, ih (buy_update s f.count f.price) (by rw [hcount]; omega)
      (fun g hg => hpos g (List.mem_cons_of_mem f hg)), hcost]
    simp [fills_cost]
    ring

/-- Starting from the empty ledger entry, a sequence of positive-count BUY
fills lands exactly on (total count, weighted average price).  (For the
empty sequence both sides are the zero entry, since `0 / 0 = 0` in `Rat`.) -/
theorem apply_buys_closed (fills : List Fill) (h : ∀ f ∈ fills, 0 < f.count) :
    apply_buys initial_position fills
      = ⟨fills_count fills, fills_cost fills / ((fills_count fills : Int) : Rat)⟩ := by
  rcases fills with _ | ⟨f, t⟩
  · simp [apply_buys, fills_count, fills_cost, initial_position]
  · have hcnt := count_apply_buys (f :: t) initial_position
    have hcost := cost_apply_buys (f :: t) initial_position (le_refl 0) h
    have hpos : 0 < fills_count (f :: t) := by
      have : ∀ x ∈ (f :: t).map Fill.count, 0 < x := by
        intro x hx
        rcases List.mem_map.mp hx with ⟨g, hg, rfl⟩
        exact h g hg
      exact List.sum_pos _ this (by simp)
    have hcnt' : (apply_buys initial_position (f :: t)).count = fills_count (f :: t) := by
      rw [hcnt]; simp [initial_position]
    have hne : ((fills_count (f :: t) : Int) : Rat) ≠ 0 := by
      rw [Int.cast_ne_zero]; omega
    ext
    · exact hcnt'
    · have : ((fills_count (f :: t) : Int) : Rat)
          * (apply_buys initial_position (f :: t)).avg_price = fills_cost (f :: t) := by
        rw [← hcnt']
        rw [hcost]
        simp [initial_position]
      field_simp
      linarith [this]

/-! ### Claim theorems -/

/-- C1: every quick-buy order (YES or NO side) is priced at
`min(99, reference_price + buffer_cents)`, the buffer defaulting to 2; in
particular reference 97 with the default buffer submits 99, not 100. -/
theorem quick_buy_price_min99 (ticker : String)
    (count current_price price_buffer : Int) (time_ms : Nat) :
    (quick_buy_yes ticker count current_price price_buffer time_ms).price
        = min 99 (current_price + price_buffer) ∧
    (quick_buy_no ticker count current_price price_buffer time_ms).price
        = min 99 (current_price + price_buffer) ∧
    default_price_buffer = 2 ∧
    (quick_buy_yes ticker count 97 default_price_buffer time_ms).price = 99 ∧
    (quick_buy_no ticker count 97 default_price_buffer time_ms).price = 99 :=
  ⟨rfl, rfl, rfl,
    by show min 99 (97 + default_price_buffer) = 99; decide,
    by show min 99 (97 + default_price_buffer) = 99; decide⟩

/-- C2: a quick sell submits exactly the price of the last element of the
requested side of the freshly fetched orderbook (the best bid when the
levels are sorted ascending by price), and fails with an error — placing no
order — when that side is empty. -/
theorem quick_sell_best_bid (orderbook : Orderbook) (ticker : String)
    (count : Int) (time_ms : Nat) :
    (orderbook.yes = [] →
      quick_sell_yes orderbook ticker count time_ms
        = .error "No YES orders available in orderbook") ∧
    (∀ level, orderbook.yes.getLast? = some level →
      quick_sell_yes orderbook ticker count time_ms
          = .ok (place_order ticker "yes" "sell" count level.1 time_ms) ∧
      (List.Pairwise (fun a b => a.1 ≤ b.1) orderbook.yes →
        ∀ x ∈ orderbook.yes, x.1 ≤ level.1)) ∧
    (orderbook.no = [] →
      quick_sell_no orderbook ticker count time_ms
        = .error "No NO orders available in orderbook") ∧
    (∀ level, orderbook.no.getLast? = some level →
      quick_sell_no orderbook ticker count time_ms
          = .ok (place_order ticker "no" "sell" count level.1 time_ms) ∧
      (List.Pairwise (fun a b => a.1 ≤ b.1) orderbook.no →
        ∀ x ∈ orderbook.no, x.1 ≤ level.1)) := by
  refine ⟨fun hy => ?_, fun level hl => ⟨?_, fun hsort x hx => ?_⟩,
    fun hn => ?_, fun level hl => ⟨?_, fun hsort x hx => ?_⟩⟩
  · simp [quick_sell_yes, hy]
  · simp [quick_sell_yes, hl]
  · exact fst_le_getLast_of_sorted orderbook.yes hsort x hx level hl
  · simp [quick_sell_no, hn]
  · simp [quick_sell_no, hl]
  · exact fst_le_getLast_of_sorted orderbook.no hsort x hx level hl

/-- C2 witness: with YES levels `[(1,50),(45,20),(60,10)]` the quick sell
is submitted at price 60. -/
theorem quick_sell_best_bid_witness :
    quick_sell_yes ⟨[(1, 50), (45, 20), (60, 10)], []⟩ "T" 5 0
      = .ok (place_order "T" "yes" "sell" 5 60 0) :=
  ((quick_sell_best_bid ⟨[(1, 50), (45, 20), (60, 10)], []⟩ "T" 5 0).2.1
    (60, 10) rfl).1

/-- C3: starting from the empty ledger entry, any sequence of
positive-count BUY fills yields `avg_price` equal to the count-weighted
average of the fill prices, and the resulting state is invariant under
reordering of the fills. -/
theorem buy_fills_weighted_avg (l l' : List Fill)
    (hl : ∀ f ∈ l, 0 < f.count) (hp : l.Perm l') :
    (apply_buys initial_position l).avg_price
        = fills_cost l / ((fills_count l : Int) : Rat) ∧
    apply_buys initial_position l = apply_buys initial_position l' := by
  have hl' : ∀ f ∈ l', 0 < f.count := fun f hf => hl f (hp.mem_iff.mpr hf)
  constructor
  · rw [apply_buys_closed l hl]
  · rw [apply_buys_closed l hl, apply_buys_closed l' hl']
    have hc : fills_count l = fills_count l' := (hp.map Fill.count).sum_eq
    have hcp : fills_cost l = fills_cost l' := by
      show (l.map (fun f => (f.count : Rat) * f.price)).sum
          = (l'.map (fun f => (f.count : Rat) * f.price)).sum
      exact (hp.map (fun f => (f.count : Rat) * f.price)).sum_eq
    rw [hc, hcp]

/-- C3 witness: fills (2 @ 10¢) then (3 @ 20¢) average to 16¢, in either
order. -/
theorem buy_fills_weighted_avg_witness :
    (apply_buys initial_position [(⟨2, 10⟩ : Fill), ⟨3, 20⟩]).avg_price
        = fills_cost [(⟨2, 10⟩ : Fill), ⟨3, 20⟩]
            / ((fills_count [(⟨2, 10⟩ : Fill), ⟨3, 20⟩] : Int) : Rat) ∧
    apply_buys initial_position [(⟨2, 10⟩ : Fill), ⟨3, 20⟩]
        = apply_buys initial_position [(⟨3, 20⟩ : Fill), ⟨2, 10⟩] :=
  buy_fills_weighted_avg [(⟨2, 10⟩ : Fill), ⟨3, 20⟩] [(⟨3, 20⟩ : Fill), ⟨2, 10⟩]
    (by decide) (List.Perm.swap (⟨3, 20⟩ : Fill) ⟨2, 10⟩ [])

/-- C4: a SELL of any requested count clamps the new count at
`max(0, old - requested)` — never negative — and leaves `avg_price`
unchanged; together with the BUY update this preserves `count ≥ 0` for
every ledger operation on a non-negative state. -/
theorem sell_update_clamps (s : PosState) (fill_count buy_count : Int)
    (price : Rat) (hs : 0 ≤ s.count) (hb : 0 ≤ buy_count) :
    (sell_update s fill_count).count = max 0 (s.count - fill_count) ∧
    (sell_update s fill_count).avg_price = s.avg_price ∧
    0 ≤ (sell_update s fill_count).count ∧
    0 ≤ (buy_update s buy_count price).count :=
  ⟨rfl, rfl, le_max_left 0 (s.count - fill_count), by simp [buy_update]; omega⟩

/-- C4 witness: over-selling 8 contracts from a 5-contract position at
average 30¢ leaves count 0 and average 30¢, and a 2-contract buy keeps the
count non-negative. -/
theorem sell_update_clamps_witness :
    (sell_update ⟨5, 30⟩ 8).count = max 0 ((5 : Int) - 8) ∧
    (sell_update ⟨5, 30⟩ 8).avg_price = (30 : Rat) ∧
    0 ≤ (sell_update ⟨5, 30⟩ 8).count ∧
    0 ≤ (buy_update ⟨5, 30⟩ 2 10).count :=
  sell_update_clamps ⟨5, 30⟩ 8 2 10 (by decide) (by decide)

/-- C10: a BUY of `c > 0` contracts at price `p` applied to a count-zero
position wipes out any stale `avg_price`: the result is exactly count `c`
at average `p`. -/
theorem buy_from_zero_resets_avg (stale_avg : Rat) (c : Int) (p : Rat)
    (hc : 0 < c) : buy_update ⟨0, stale_avg⟩ c p = ⟨c, p⟩ := by
  have hcne : ((c : Int) : Rat) ≠ 0 := by
    rw [Int.cast_ne_zero]; omega
  ext
  · simp [buy_update]
  · simp [buy_update, if_pos hc]
    exact mul_div_cancel_left₀ p hcne

/-- C10 witness: buying 4 @ 55¢ onto a sold-out position with stale average
37¢ gives exactly 4 @ 55¢. -/
theorem buy_from_zero_resets_avg_witness :
    buy_update ⟨0, 37⟩ 4 55 = ⟨4, 55⟩ :=
  buy_from_zero_resets_avg 37 4 55 (by decide)

/-- C5 counterexample: in the success path of `execute_trade`, the
position-ledger update does NOT happen before the watchdog is armed — the
source arms the watchdog (and registers the pending order) first. -/
theorem trade_ordering_counterexample :
    ¬ (execute_trade_buy_events.indexOf TradeEvent.updatePositions
        < execute_trade_buy_events.indexOf TradeEvent.armWatchdog) := by
  decide

/-- C5 amended: within a single successful BUY, the watchdog is armed
before the position-ledger update, and both happen before the HTTP
response is returned; the response embeds the already-updated ledger, so a
caller that receives a success response is guaranteed the position update
is reflected. -/
theorem trade_ordering_amended (ps : Positions) (side : String)
    (count : Int) (executed_price : Rat) :
    execute_trade_buy_events.indexOf TradeEvent.armWatchdog
        < execute_trade_buy_events.indexOf TradeEvent.updatePositions ∧
    execute_trade_buy_events.indexOf TradeEvent.updatePositions
        < execute_trade_buy_events.indexOf TradeEvent.respond ∧
    execute_trade_buy_events.indexOf TradeEvent.armWatchdog
        < execute_trade_buy_events.indexOf TradeEvent.respond ∧
    (execute_trade_buy ps side count executed_price).response_positions
        = update_positions_buy ps side count executed_price ∧
    (execute_trade_buy ps side count executed_price).response_positions
        = (execute_trade_buy ps side count executed_price).final_positions :=
  ⟨by decide, by decide, by decide, rfl, rfl⟩

/-- C6 counterexample: `place_order` performs no clamping, so a price of
150 is submitted as 150, outside `[1, 99]`. -/
theorem place_order_no_clamp_counterexample :
    (place_order "T" "yes" "buy" 1 150 0).price = 150 ∧
    ¬ ((place_order "T" "yes" "buy" 1 150 0).price ≤ 99) :=
  ⟨rfl, by decide⟩

/-- C6 amended: `place_order` submits the caller's price unchanged (no
clamping anywhere in the client); only the quick-buy paths bound the price,
via `min(99, reference + buffer)`, so a quick-buy price lies in `[1, 99]`
whenever the reference price is non-negative and the buffer is at least
1 — which holds for the default buffer 2. -/
theorem order_price_range (ticker side action : String)
    (count price current_price price_buffer : Int) (time_ms : Nat)
    (href : 0 ≤ current_price) (hbuf : 1 ≤ price_buffer) :
    (place_order ticker side action count price time_ms).price = price ∧
    1 ≤ (quick_buy_yes ticker count current_price price_buffer time_ms).price ∧
    (quick_buy_yes ticker count current_price price_buffer time_ms).price ≤ 99 ∧
    1 ≤ (quick_buy_no ticker count current_price price_buffer time_ms).price ∧
    (quick_buy_no ticker count current_price price_buffer time_ms).price ≤ 99 ∧
    1 ≤ default_price_buffer := by
  refine ⟨rfl, ?_, ?_, ?_, ?_, by decide⟩ <;>
    show _ ≤ _ <;>
    simp only [quick_buy_yes, quick_buy_no, place_order] <;>
    omega

/-- C6 amended witness: a quick buy at reference 50¢ with the default
buffer submits 52¢, inside `[1, 99]`. -/
theorem order_price_range_witness :
    (place_order "T" "yes" "buy" 1 52 0).price = 52 ∧
    1 ≤ (quick_buy_yes "T" 1 50 2 0).price ∧
    (quick_buy_yes "T" 1 50 2 0).price ≤ 99 ∧
    1 ≤ (quick_buy_no "T" 1 50 2 0).price ∧
    (quick_buy_no "T" 1 50 2 0).price ≤ 99 ∧
    1 ≤ default_price_buffer :=
  order_price_range "T" "yes" "buy" 1 52 50 2 0 (by decide) (by decide)

instance : IsTotal (String × String) (fun a b => a.1 ≤ b.1) :=
  ⟨fun a b => le_total a.1 b.1⟩

instance : IsTrans (String × String) (fun a b => a.1 ≤ b.1) :=
  ⟨fun _ _ _ h h' => le_trans h h'⟩

/-- C7: the string signed for an authenticated request is exactly
`timestamp ++ method ++ "/trade-api/v2" ++ path`, with the query string
(parameters sorted by key) appended after `?` exactly when parameters are
present, and the request body is never part of it: identical
method/path/timestamp with different bodies sign the identical string. -/
theorem signed_message_excludes_body (timestamp method path : String)
    (params : List (String × String)) (body1 body2 k v : String)
    (rest : List (String × String)) :
    signed_message timestamp method path params body1
        = signed_message timestamp method path params body2 ∧
    signed_message timestamp method path params body1
        = timestamp ++ method ++ (trade_api_v2 ++ full_path_for_sig path params) ∧
    full_path_for_sig path [] = path ∧
    full_path_for_sig path ((k, v) :: rest)
        = path ++ "?" ++ query_string ((k, v) :: rest) ∧
    List.Sorted (fun a b => a.1 ≤ b.1) (sorted_params params) ∧
    (sorted_params params).Perm params := by
  refine ⟨rfl, rfl, rfl, ?_, ?_, ?_⟩
  · simp [full_path_for_sig]
  · exact List.sorted_insertionSort (fun a b => a.1 ≤ b.1) params
  · exact List.perm_insertionSort (fun a b => a.1 ≤ b.1) params

/-- C8: whichever way one watchdog run terminates — order already
resolved, found filled, cancel issued, or a transport error during the
check — the task returns normally (no error propagates to the host) and
the order id is absent from the pending set it leaves behind. -/
theorem watchdog_removes_pending (env : WatchdogEnv) (order_id : String)
    (pending_orders : Finset String) :
    ∃ r, cancel_task env order_id pending_orders = .ok r ∧
      order_id ∉ r.1 ∧
      (r.2 = .raceLost → order_id ∉ pending_orders) := by
  unfold cancel_task cancel_task_body
  by_cases hmem : order_id ∉ pending_orders
  · rw [if_pos hmem]
    exact ⟨(pending_orders, .raceLost), rfl, hmem, fun _ => hmem⟩
  · rw [if_neg hmem]
    cases hs : env.status_result with
    | error e =>
      exact ⟨_, rfl, Finset.not_mem_erase order_id pending_orders, fun h => nomatch h⟩
    | ok status =>
      dsimp only
      by_cases hst : status = "resting" ∨ status = "pending"
      · rw [if_pos hst]
        cases hc : env.cancel_result with
        | error e =>
          exact ⟨_, rfl, Finset.not_mem_erase order_id pending_orders, fun h => nomatch h⟩
        | ok u =>
          exact ⟨_, rfl, Finset.not_mem_erase order_id pending_orders, fun h => nomatch h⟩
      · rw [if_neg hst]
        exact ⟨_, rfl, Finset.not_mem_erase order_id pending_orders, fun h => nomatch h⟩

/-- C9 counterexample: `client_order_id` is derived from the wall-clock
millisecond reading alone, so two distinct placements falling in the same
millisecond receive the same id — per-process uniqueness fails. -/
theorem client_order_id_collision :
    ¬ (∀ (times : List Nat) (i j : Nat) (hi : i < times.length)
          (hj : j < times.length), i ≠ j →
        client_order_id (times.get ⟨i, hi⟩) ≠ client_order_id (times.get ⟨j, hj⟩)) := by
  intro h
  exact h [1000, 1000] 0 1 (by decide) (by decide) (by decide) rfl

/-- C9 amended: `client_order_id` is injective in the millisecond reading:
two placements get distinct ids exactly when their wall-clock millisecond
readings differ (the clock is `time.time()`, not a monotonic source, so
same-millisecond placements collide). -/
theorem client_order_id_unique (t1 t2 : Nat) (h : t1 ≠ t2) :
    client_order_id t1 ≠ client_order_id t2 := by
  intro heq
  apply h
  apply nat_repr_injective
  have hd := congrArg String.data heq
  simp only [client_order_id, String.data_append] at hd
  exact String.ext (List.append_cancel_left hd)

/-- C9 amended witness: readings 1000ms and 1001ms give distinct ids. -/
theorem client_order_id_unique_witness :
    client_order_id 1000 ≠ client_order_id 1001 :=
  client_order_id_unique 1000 1001 (by decide)

/-- C8 witness: a concrete run — order `o1` pending, status fetch returns
`resting`, cancel succeeds — exits normally with `o1` removed. -/
theorem watchdog_removes_pending_witness :
    ∃ r, cancel_task ⟨Except.ok "resting", Except.ok ()⟩ "o1" {"o1"} = .ok r ∧
      ("o1" : String) ∉ r.1 ∧
      (r.2 = .raceLost → ("o1" : String) ∉ ({"o1"} : Finset String)) :=
  watchdog_removes_pending ⟨Except.ok "resting", Except.ok ()⟩ "o1" {"o1"}
